import Mathlib

/-
Shallow embedding of the glow HostManager runtime
(src/lib/Runtime/HostManager/HostManager.cpp) and of quantization::clip
(src/include/glow/Quantization/Base/Base.h).

The HostManager state is `networks_` (a name -> NetworkData map, of which
only the live-request refcount matters to the properties below; the DAG and
shared Module are opaque payloads), the atomic counters
`activeRequestCount_` and `totalRequestCount_`, and the configured
`config_.maxActiveRequests`.  Concurrency is modelled by interleaving:
every public operation and every executor completion is one atomic step,
matching the source's lock/atomic discipline.  Machine counters (size_t)
are modelled as Nat; they are only decremented after a matching increment
on every path of the source.
-/

namespace Glow

/-- Error kinds surfaced by the runtime: the GlowErr codes raised in
HostManager.cpp plus the external failure results it propagates. -/
inductive ErrCode where
  | notFound
  | requestRefused
  | netBusy
  | duplicateName
  | profilingNotAllowed
  | optimizeFailed
  | partitionInfeasible
  | provisionFailed
  | deviceError
  deriving DecidableEq, Repr

/-- Observable actions of the orchestrator, in program order: caller-callback
invocations, handoff of a run to the Executor, the two decrements performed
by the wrapping completion callback, device evictions, provisioner
removals, executor shutdown and device stops. -/
inductive Event where
  | callback (runId : Nat) (err : Option ErrCode)
  | forward (runId : Nat)
  | decRef (name : String)
  | decActive
  | evict (node : String) (device : Nat)
  | removeFunction (node : String)
  | shutdownExecutor
  | stopDevice (device : Nat)
  deriving DecidableEq, Repr

/-- The registry `networks_`: association list from network name to the
entry's live-request refcount (the DAG and shared Module are opaque). -/
abbrev Registry := List (String × Nat)

/-- `networks_.find(name)`: refcount of the first entry named `name`. -/
def lookupNet : Registry → String → Option Nat
  | [], _ => none
  | (n, rc) :: rest, name => if n = name then some rc else lookupNet rest name

/-- In-place mutation of one entry's refcount (increment or decrement of
`network->refcount`). -/
def adjustRef : Registry → String → (Nat → Nat) → Registry
  | [], _, _ => []
  | (n, rc) :: rest, name, f =>
      if n = name then (n, f rc) :: rest else (n, rc) :: adjustRef rest name f

/-- `networks_.erase(it)`: drop the entry named `name`. -/
def eraseNet : Registry → String → Registry
  | [], _ => []
  | (n, rc) :: rest, name =>
      if n = name then rest else (n, rc) :: eraseNet rest name

/-- `map::operator[]` followed by assignment of dag/module: inserts a fresh
entry (refcount 0) when absent; when present the existing entry (and its
refcount) is kept, only the opaque payload being overwritten. -/
def insertNet (networks : Registry) (name : String) : Registry :=
  match lookupNet networks name with
  | some _ => networks
  | none => networks ++ [(name, 0)]

/-- `HostConfig`: the field runNetwork consults. -/
structure HostConfig where
  maxActiveRequests : Nat
  deriving DecidableEq, Repr

/-- HostManager state: the registry, the two counters, and the bookkeeping
list of runs past admission and not yet completed (runs handed to the
Executor whose wrapping callback has not yet fired), as pairs
(run identifier, network name). -/
structure HostState where
  networks : Registry
  activeRequestCount : Nat
  totalRequestCount : Nat
  pending : List (Nat × String)
  deriving DecidableEq, Repr

/-- `HostManager::runNetwork` (HostManager.cpp lines 270-331): allocate the
run identifier from `totalRequestCount_++`; look the name up under the
registry lock, incrementing the refcount when found; on miss invoke the
callback with the not-found error; otherwise fetch-add the global
in-flight counter and compare the OLD value against
`config_.maxActiveRequests`: at or over the bound, roll both increments
back and invoke the callback with the request-refused error; otherwise
hand the run to the Executor.  Returns (run identifier, new state,
emitted events). -/
def runNetwork (cfg : HostConfig) (s : HostState) (name : String) :
    Nat × HostState × List Event :=
  let currentRun := s.totalRequestCount
  let s1 : HostState := { s with totalRequestCount := s.totalRequestCount + 1 }
  match lookupNet s1.networks name with
  | none =>
      (currentRun, s1, [Event.callback currentRun (some ErrCode.notFound)])
  | some _ =>
      let s2 : HostState := { s1 with networks := adjustRef s1.networks name (· + 1) }
      let activeRequestCount := s2.activeRequestCount
      let s3 : HostState := { s2 with activeRequestCount := s2.activeRequestCount + 1 }
      if cfg.maxActiveRequests ≤ activeRequestCount then
        let s4 : HostState :=
          { s3 with
            activeRequestCount := s3.activeRequestCount - 1
            networks := adjustRef s3.networks name (· - 1) }
        (currentRun, s4, [Event.callback currentRun (some ErrCode.requestRefused)])
      else
        (currentRun, { s3 with pending := (currentRun, name) :: s3.pending },
          [Event.forward currentRun])

/-- The wrapping completion callback runNetwork passes to `executor_->run`
(HostManager.cpp lines 315-329): under the registry lock, decrement the
entry's refcount if the name is still registered; invoke the caller's
callback; then decrement the global in-flight counter. -/
def wrappedCallback (s : HostState) (name : String) (runID : Nat)
    (err : Option ErrCode) : HostState × List Event :=
  let found := (lookupNet s.networks name).isSome
  let s1 : HostState :=
    { s with networks := if found then adjustRef s.networks name (· - 1) else s.networks }
  let s2 : HostState := { s1 with activeRequestCount := s1.activeRequestCount - 1 }
  (s2, (if found then [Event.decRef name] else []) ++
    [Event.callback runID err, Event.decActive])

/-- First pending run with the given identifier, if any. -/
def findPending : List (Nat × String) → Nat → Option String
  | [], _ => none
  | (r, n) :: rest, rid => if r = rid then some n else findPending rest rid

/-- Retire the first pending run with the given identifier. -/
def erasePending : List (Nat × String) → Nat → List (Nat × String)
  | [], _ => []
  | (r, n) :: rest, rid =>
      if r = rid then rest else (r, n) :: erasePending rest rid

/-- One atomic step of the interleaved system: a `runNetwork` call, or the
Executor delivering one admitted run's completion.  Modelled from the spec:
the Executor (src code not present) invokes each admitted run's completion
callback exactly once, with the run identifier it was given; a `complete`
step delivers that callback and retires the pending run, and is a no-op
for an identifier with no pending run. -/
inductive Step where
  | run (name : String)
  | complete (runId : Nat) (err : Option ErrCode)
  deriving DecidableEq, Repr

/-- Transition function for one step. -/
def hostStep (cfg : HostConfig) (s : HostState) : Step → HostState × List Event
  | Step.run name =>
      let r := runNetwork cfg s name
      (r.2.1, r.2.2)
  | Step.complete rid e =>
      match findPending s.pending rid with
      | none => (s, [])
      | some name =>
          let s1 : HostState := { s with pending := erasePending s.pending rid }
          wrappedCallback s1 name rid e

/-- Run a sequence of steps, concatenating the emitted events. -/
def execTrace (cfg : HostConfig) : HostState → List Step → HostState × List Event
  | s, [] => (s, [])
  | s, st :: rest =>
      let r := hostStep cfg s st
      let r2 := execTrace cfg r.1 rest
      (r2.1, r.2 ++ r2.2)

/-- Identifiers of the runs past admission and not yet completed. -/
def pendingIds (s : HostState) : List Nat := s.pending.map Prod.fst

/-- Run identifiers issued, in order, by the `run` steps of a trace. -/
def issuedIds (cfg : HostConfig) : HostState → List Step → List Nat
  | _, [] => []
  | s, Step.run name :: rest =>
      s.totalRequestCount :: issuedIds cfg (hostStep cfg s (Step.run name)).1 rest
  | s, Step.complete rid e :: rest =>
      issuedIds cfg (hostStep cfg s (Step.complete rid e)).1 rest

/-- Number of `run` steps in a trace. -/
def countRuns : List Step → Nat
  | [] => 0
  | Step.run _ :: rest => countRuns rest + 1
  | Step.complete _ _ :: rest => countRuns rest

/-- Whether an event is a caller-callback invocation. -/
def isCallbackEv : Event → Bool
  | Event.callback _ _ => true
  | _ => false

/-- Whether an event is a caller-callback invocation carrying run
identifier `r`. -/
def isCallbackFor (r : Nat) : Event → Bool
  | Event.callback rid _ => rid == r
  | _ => false

/-- Number of caller-callback invocations carrying run identifier `r`. -/
def cbCount (evs : List Event) (r : Nat) : Nat :=
  (evs.filter (isCallbackFor r)).length

/-- Events emitted before the (first) caller-callback invocation. -/
def beforeCallback (evs : List Event) : List Event :=
  evs.takeWhile fun ev => !(isCallbackEv ev)

/-- Events emitted after the (first) caller-callback invocation. -/
def afterCallback (evs : List Event) : List Event :=
  (evs.dropWhile fun ev => !(isCallbackEv ev)).tail

/-- Consistency of a reachable HostManager state: the global in-flight
counter counts exactly the runs past admission and not yet completed,
that count respects the configured bound, and pending run identifiers are
distinct and below the allocation counter. -/
def GoodState (cfg : HostConfig) (s : HostState) : Prop :=
  s.activeRequestCount = s.pending.length ∧
  s.pending.length ≤ cfg.maxActiveRequests ∧
  (pendingIds s).Nodup ∧
  ∀ r ∈ pendingIds s, r < s.totalRequestCount

/-- Expected number of callbacks for run identifier `r`: one exactly when
`r` has been issued since the floor `base` (`base ≤ r < tot`) and is no
longer pending. -/
def cbSpec (base tot : Nat) (ids : List Nat) (r : Nat) : Nat :=
  if base ≤ r ∧ r < tot ∧ r ∉ ids then 1 else 0

/-- Callback accounting relative to the identifier floor `base` (the value
of `totalRequestCount_` at the start of the observed trace): every
identifier at or past `base` that has been issued and is no longer pending
has received exactly one callback; every other identifier, none. -/
def CbInv (base : Nat) (s : HostState) (evs : List Event) : Prop :=
  base ≤ s.totalRequestCount ∧
  (∀ r ∈ pendingIds s, base ≤ r) ∧
  ∀ r : Nat,
    cbCount evs r = cbSpec base s.totalRequestCount (pendingIds s) r

/-- First-error-wins accumulator `OneErrOnly::set`. -/
def oneErrSet : Option ErrCode → Option ErrCode → Option ErrCode
  | none, e => e
  | some e, _ => some e

/-- Fold a list of results, keeping the first error (`OneErrOnly`). -/
def oneErrOnly (errs : List (Option ErrCode)) : Option ErrCode :=
  errs.foldl oneErrSet none

/-- External tables removeNetwork consults: for each network name the names
of its DAG nodes; for each DAG node the device IDs it is resident on; for
each (node, device) pair the result the device's asynchronous
`evictNetwork` reports through its callback. -/
structure DeviceTable where
  dagNodes : String → List String
  deviceIDs : String → List Nat
  evictResult : String → Nat → Option ErrCode

/-- `HostManager::removeNetwork` (HostManager.cpp lines 176-214): success
without effect when the name is absent; the busy error, before any
eviction, when the entry's refcount is nonzero; otherwise evict every DAG
node from every device it is resident on (awaiting each callback,
aggregating errors first-error-wins), remove each node's compiled function
from the Provisioner, erase the entry, and return the aggregate. -/
def removeNetwork (dt : DeviceTable) (networks : Registry) (name : String) :
    Registry × List Event × Option ErrCode :=
  match lookupNet networks name with
  | none => (networks, [], none)
  | some rc =>
      if rc ≠ 0 then (networks, [], some ErrCode.netBusy)
      else
        let nodes := dt.dagNodes name
        let evs := (nodes.map fun nd =>
          ((dt.deviceIDs nd).map fun d => Event.evict nd d) ++
            [Event.removeFunction nd]).flatten
        let err := oneErrOnly ((nodes.map fun nd =>
          (dt.deviceIDs nd).map fun d => dt.evictResult nd d).flatten)
        (eraseNet networks name, evs, err)

/-- The removal loop of `HostManager::clearHost` (HostManager.cpp lines
230-232): `while (networks_.size() != 0) RETURN_IF_ERR(removeNetwork(first))`.
A removal error returns immediately, leaving the rest of the registry in
place.  When the head removal succeeds it has erased exactly the head
entry, so the loop recurses on the tail. -/
def clearHostLoop (dt : DeviceTable) : Registry → Registry × List Event × Option ErrCode
  | [] => ([], [], none)
  | (n, rc) :: rest =>
      let r := removeNetwork dt ((n, rc) :: rest) n
      match r.2.2 with
      | some e => (r.1, r.2.1, some e)
      | none =>
          let r2 := clearHostLoop dt rest
          (r2.1, r.2.1 ++ r2.2.1, r2.2.2)

/-- `HostManager::clearHost` (HostManager.cpp lines 221-242): shut the
Executor down first (modelled from the spec: shutdown blocks until all
admitted in-flight work drains; the Executor source is not present), then
remove every network, returning early on the first removal error; only
when all removals succeed, stop every device, aggregating stop errors
first-error-wins.  `stopResults` lists each device ID with its `stop()`
result. -/
def clearHost (dt : DeviceTable) (stopResults : List (Nat × Option ErrCode))
    (networks : Registry) : Registry × List Event × Option ErrCode :=
  let r := clearHostLoop dt networks
  match r.2.2 with
  | some e => (r.1, Event.shutdownExecutor :: r.2.1, some e)
  | none =>
      (r.1,
        Event.shutdownExecutor :: r.2.1 ++ stopResults.map fun p => Event.stopDevice p.1,
        oneErrOnly (stopResults.map Prod.snd))

/-- `HostManager::addNetwork` (HostManager.cpp lines 95-174), with its
external collaborators as parameters: under the registry lock, reject when
any function name of the module is already registered; then run the
pre-lowering optimization pass over every function (`optErr` is its first
failure, if any); then partition (`partResult` is the DAG list, reduced to
its root names, or the partitioner's error); in profiling mode require the
registry to be empty; then provision (`provErr` is its failure, if any);
only after all of that insert one entry per DAG root.  Every error path
returns with the registry unchanged. -/
def addNetwork (networks : Registry) (funcs : List String)
    (optErr : Option ErrCode) (partResult : Except ErrCode (List String))
    (profiling : Bool) (provErr : Option ErrCode) :
    Registry × Option ErrCode :=
  if funcs.any fun f => (lookupNet networks f).isSome then
    (networks, some ErrCode.duplicateName)
  else
    match optErr with
    | some e => (networks, some e)
    | none =>
        match partResult with
        | Except.error e => (networks, some e)
        | Except.ok roots =>
            if profiling ∧ networks.length ≠ 0 then
              (networks, some ErrCode.profilingNotAllowed)
            else
              match provErr with
              | some e => (networks, some e)
              | none => (roots.foldl insertNet networks, none)

/-- `std::numeric_limits<DestTy>::min()` for a signed integer type of `w`
bits. -/
def intMin (w : Nat) : Int := -(2 ^ (w - 1))

/-- `std::numeric_limits<DestTy>::max()` for a signed integer type of `w`
bits. -/
def intMax (w : Nat) : Int := 2 ^ (w - 1) - 1

/-- `quantization::clip<SrcTy, DestTy>` (Quantization/Base/Base.h lines
153-159) for signed DestTy of `w` bits:
`std::max<SrcTy>(mn, std::min<SrcTy>(mx, in))`, computed in SrcTy
(modelled as Int; the static_assert `sizeof(SrcTy) >= sizeof(DestTy)`
makes the conversions of mn, mx and of the returned value exact). -/
def clip (w : Nat) (v : Int) : Int := max (intMin w) (min (intMax w) v)

/-
Helper lemmas.
-/

/-- Incrementing and then decrementing a registered entry's refcount
restores the registry. -/
theorem adjustRef_cancel (networks : Registry) (name : String) (rc : Nat)
    (h : lookupNet networks name = some rc) :
    adjustRef (adjustRef networks name (· + 1)) name (· - 1) = networks := by
  induction networks with
  | nil => simp [lookupNet] at h
  | cons hd tl ih =>
      obtain ⟨n, v⟩ := hd
      by_cases hn : n = name
      · simp [adjustRef, hn]
      · simp [lookupNet, hn] at h
        simp [adjustRef, hn]
        exact ih h

/-- A run identifier found among the pending runs is one of their
identifiers. -/
theorem findPending_mem (p : List (Nat × String)) (rid : Nat) (name : String)
    (h : findPending p rid = some name) : rid ∈ p.map Prod.fst := by
  induction p with
  | nil => simp [findPending] at h
  | cons hd tl ih =>
      obtain ⟨r, n⟩ := hd
      by_cases hr : r = rid
      · subst hr; simp
      · simp only [findPending, if_neg hr] at h
        simpa using Or.inr (ih h)

/-- Retiring a pending run yields a sublist of the pending runs. -/
theorem erasePending_sublist (p : List (Nat × String)) (rid : Nat) :
    (erasePending p rid).Sublist p := by
  induction p with
  | nil => simp [erasePending]
  | cons hd tl ih =>
      obtain ⟨r, n⟩ := hd
      by_cases hr : r = rid
      · simp [erasePending, hr]
      · simpa [erasePending, hr] using ih.cons₂ (r, n)

/-- Retiring a pending run whose identifier is present shortens the list
by exactly one. -/
theorem erasePending_length (p : List (Nat × String)) (rid : Nat)
    (h : rid ∈ p.map Prod.fst) :
    (erasePending p rid).length + 1 = p.length := by
  induction p with
  | nil => simp at h
  | cons hd tl ih =>
      obtain ⟨r, n⟩ := hd
      by_cases hr : r = rid
      · simp [erasePending, hr]
      · have htl : rid ∈ tl.map Prod.fst := by
          rw [List.map_cons] at h
          rcases List.mem_cons.1 h with h1 | h1
          · exact absurd h1.symm hr
          · exact h1
        simp [erasePending, hr, ih htl]

/-- With distinct pending identifiers, membership after retiring `rid` is
membership before, minus `rid`. -/
theorem mem_erasePending (p : List (Nat × String)) (rid r : Nat)
    (hnd : (p.map Prod.fst).Nodup) :
    r ∈ (erasePending p rid).map Prod.fst ↔ r ∈ p.map Prod.fst ∧ r ≠ rid := by
  induction p with
  | nil => simp [erasePending]
  | cons hd tl ih =>
      obtain ⟨q, n⟩ := hd
      have hq : q ∉ tl.map Prod.fst := (List.nodup_cons.1 (by simpa using hnd)).1
      have hndtl : (tl.map Prod.fst).Nodup := (List.nodup_cons.1 (by simpa using hnd)).2
      by_cases hqr : q = rid
      · subst hqr
        simp only [erasePending, if_pos rfl]
        constructor
        · intro hmem
          refine ⟨by rw [List.map_cons]; exact List.mem_cons.2 (Or.inr hmem), ?_⟩
          intro hrq
          exact hq (hrq ▸ hmem)
        · rintro ⟨hmem, hne⟩
          rw [List.map_cons] at hmem
          rcases List.mem_cons.1 hmem with h1 | h1
          · exact absurd h1 hne
          · exact h1
      · simp only [erasePending, if_neg hqr, List.map_cons, List.mem_cons]
        rw [ih hndtl]
        constructor
        · rintro (h1 | ⟨h1, h2⟩)
          · exact ⟨Or.inl h1, h1 ▸ hqr⟩
          · exact ⟨Or.inr h1, h2⟩
        · rintro ⟨h1 | h1, h2⟩
          · exact Or.inl h1
          · exact Or.inr ⟨h1, h2⟩

/-- Callback counting distributes over event concatenation. -/
theorem cbCount_append (evs1 evs2 : List Event) (r : Nat) :
    cbCount (evs1 ++ evs2) r = cbCount evs1 r + cbCount evs2 r := by
  simp [cbCount, List.filter_append]

/-- A single callback event counts once for its own identifier, zero
otherwise. -/
theorem cbCount_callback (t : Nat) (e : Option ErrCode) (r : Nat) :
    cbCount [Event.callback t e] r = if t = r then 1 else 0 := by
  by_cases h : t = r <;> simp [cbCount, isCallbackFor, h]

/-- The executor-handoff event is not a callback. -/
theorem cbCount_forward (t : Nat) (r : Nat) : cbCount [Event.forward t] r = 0 := by
  simp [cbCount, isCallbackFor]

/-- The events of the wrapping completion callback contain exactly one
callback, carrying the received run identifier. -/
theorem cbCount_wrappedEvents (b : Bool) (n : String) (t : Nat)
    (e : Option ErrCode) (r : Nat) :
    cbCount ((if b then [Event.decRef n] else []) ++
        [Event.callback t e, Event.decActive]) r = if t = r then 1 else 0 := by
  by_cases hb : b <;> by_cases h : t = r <;>
    simp [cbCount, isCallbackFor, hb, h]

/-- runNetwork on an unregistered name: the not-found branch
(HostManager.cpp lines 290-297). -/
theorem runNetwork_none_eq (cfg : HostConfig) (s : HostState) (name : String)
    (h : lookupNet s.networks name = none) :
    runNetwork cfg s name =
      (s.totalRequestCount,
        { s with totalRequestCount := s.totalRequestCount + 1 },
        [Event.callback s.totalRequestCount (some ErrCode.notFound)]) := by
  simp [runNetwork, h]

/-- runNetwork when the in-flight counter is at or over the configured
maximum: the refusal branch (HostManager.cpp lines 299-311) rolls both
increments back, so the only state change is the run-identifier counter. -/
theorem runNetwork_refused_eq (cfg : HostConfig) (s : HostState) (name : String)
    (rc : Nat) (h : lookupNet s.networks name = some rc)
    (hfull : cfg.maxActiveRequests ≤ s.activeRequestCount) :
    runNetwork cfg s name =
      (s.totalRequestCount,
        { s with totalRequestCount := s.totalRequestCount + 1 },
        [Event.callback s.totalRequestCount (some ErrCode.requestRefused)]) := by
  simp only [runNetwork, h, if_pos hfull]
  refine Prod.ext rfl (Prod.ext ?_ rfl)
  simp [adjustRef_cancel s.networks name rc h]

/-- runNetwork under the admission bound: the run is handed to the
Executor (HostManager.cpp lines 313-330). -/
theorem runNetwork_admit_eq (cfg : HostConfig) (s : HostState) (name : String)
    (rc : Nat) (h : lookupNet s.networks name = some rc)
    (hlt : s.activeRequestCount < cfg.maxActiveRequests) :
    runNetwork cfg s name =
      (s.totalRequestCount,
        { s with
            networks := adjustRef s.networks name (· + 1)
            activeRequestCount := s.activeRequestCount + 1
            totalRequestCount := s.totalRequestCount + 1
            pending := (s.totalRequestCount, name) :: s.pending },
        [Event.forward s.totalRequestCount]) := by
  simp [runNetwork, h, Nat.not_le.2 hlt]

/-- A completion step for an identifier with no pending run is a no-op. -/
theorem hostStep_complete_none (cfg : HostConfig) (s : HostState) (rid : Nat)
    (e : Option ErrCode) (h : findPending s.pending rid = none) :
    hostStep cfg s (Step.complete rid e) = (s, []) := by
  simp [hostStep, h]

/-- A completion step for a pending run retires it and runs the wrapping
callback. -/
theorem hostStep_complete_some (cfg : HostConfig) (s : HostState) (rid : Nat)
    (e : Option ErrCode) (name : String)
    (h : findPending s.pending rid = some name) :
    hostStep cfg s (Step.complete rid e) =
      wrappedCallback { s with pending := erasePending s.pending rid } name rid e := by
  simp [hostStep, h]

/-- The state part of the wrapping completion callback. -/
theorem wrappedCallback_state (s : HostState) (name : String) (rid : Nat)
    (e : Option ErrCode) :
    (wrappedCallback s name rid e).1 =
      { s with
          networks := if (lookupNet s.networks name).isSome then
              adjustRef s.networks name (· - 1) else s.networks
          activeRequestCount := s.activeRequestCount - 1 } := rfl

/-- A freshly issued identifier is not yet expected to have a callback. -/
theorem cbSpec_at_top (base t : Nat) (ids : List Nat) : cbSpec base t ids t = 0 := by
  unfold cbSpec
  rw [if_neg]
  rintro ⟨_, hlt, _⟩
  omega

/-- After issuing `t`, identifier `t` is expected to have exactly one
callback once it is not pending. -/
theorem cbSpec_issue (base t : Nat) (ids : List Nat) (hb : base ≤ t)
    (hn : t ∉ ids) : cbSpec base (t + 1) ids t = 1 := by
  unfold cbSpec
  exact if_pos ⟨hb, Nat.lt_succ_self _, hn⟩

/-- Raising the issuance bound does not affect other identifiers. -/
theorem cbSpec_succ_ne (base t r : Nat) (ids : List Nat) (h : r ≠ t) :
    cbSpec base (t + 1) ids r = cbSpec base t ids r := by
  unfold cbSpec
  refine if_congr ?_ rfl rfl
  constructor
  · rintro ⟨a, b, c⟩; exact ⟨a, by omega, c⟩
  · rintro ⟨a, b, c⟩; exact ⟨a, by omega, c⟩

/-- A pending identifier is expected to have no callback yet. -/
theorem cbSpec_mem (base t r : Nat) (ids : List Nat) (h : r ∈ ids) :
    cbSpec base t ids r = 0 := by
  unfold cbSpec
  rw [if_neg]
  rintro ⟨_, _, c⟩
  exact c h

/-- Marking `x` pending does not affect other identifiers. -/
theorem cbSpec_cons_ne (base t r x : Nat) (ids : List Nat) (h : r ≠ x) :
    cbSpec base t (x :: ids) r = cbSpec base t ids r := by
  unfold cbSpec
  refine if_congr ?_ rfl rfl
  simp [List.mem_cons, h]

/-- Retiring `rid` from the pending identifiers does not affect other
identifiers. -/
theorem cbSpec_erase_ne (base t r rid : Nat) (ids ids' : List Nat)
    (hiff : ∀ x, x ∈ ids' ↔ x ∈ ids ∧ x ≠ rid) (h : r ≠ rid) :
    cbSpec base t ids' r = cbSpec base t ids r := by
  unfold cbSpec
  refine if_congr ?_ rfl rfl
  have hr := hiff r
  constructor
  · rintro ⟨a, b, c⟩; exact ⟨a, b, fun hm => c (hr.2 ⟨hm, h⟩)⟩
  · rintro ⟨a, b, c⟩; exact ⟨a, b, fun hm => c (hr.1 hm).1⟩

/-- After retiring `rid`, identifier `rid` is expected to have exactly one
callback. -/
theorem cbSpec_erase_self (base t rid : Nat) (ids ids' : List Nat)
    (hiff : ∀ x, x ∈ ids' ↔ x ∈ ids ∧ x ≠ rid)
    (hb : base ≤ rid) (hlt : rid < t) : cbSpec base t ids' rid = 1 := by
  unfold cbSpec
  exact if_pos ⟨hb, hlt, fun hm => ((hiff rid).1 hm).2 rfl⟩

/-- State consistency is preserved by every step. -/
theorem goodState_hostStep (cfg : HostConfig) (s : HostState) (st : Step)
    (h : GoodState cfg s) : GoodState cfg (hostStep cfg s st).1 := by
  obtain ⟨h1, h2, h3, h4⟩ := h
  cases st with
  | run name =>
      rcases hl : lookupNet s.networks name with _ | rc
      · simp only [hostStep, runNetwork_none_eq cfg s name hl]
        exact ⟨h1, h2, h3, fun r hr => Nat.lt_succ_of_lt (h4 r hr)⟩
      · by_cases hfull : cfg.maxActiveRequests ≤ s.activeRequestCount
        · simp only [hostStep, runNetwork_refused_eq cfg s name rc hl hfull]
          exact ⟨h1, h2, h3, fun r hr => Nat.lt_succ_of_lt (h4 r hr)⟩
        · have hlt := Nat.not_le.1 hfull
          simp only [hostStep, runNetwork_admit_eq cfg s name rc hl hlt]
          refine ⟨?_, ?_, ?_, ?_⟩
          · show s.activeRequestCount + 1 = ((s.totalRequestCount, name) :: s.pending).length
            simp [h1]
          · show ((s.totalRequestCount, name) :: s.pending).length ≤ cfg.maxActiveRequests
            simp only [List.length_cons]
            omega
          · show (((s.totalRequestCount, name) :: s.pending).map Prod.fst).Nodup
            rw [List.map_cons]
            exact List.nodup_cons.2 ⟨fun hmem => Nat.lt_irrefl _ (h4 _ hmem), h3⟩
          · intro r hr
            show r < s.totalRequestCount + 1
            rcases List.mem_cons.1 (by rw [pendingIds, List.map_cons] at hr; exact hr)
              with hre | hrm
            · omega
            · exact Nat.lt_succ_of_lt (h4 r hrm)
  | complete rid e =>
      rcases hf : findPending s.pending rid with _ | name
      · simp only [hostStep_complete_none cfg s rid e hf]
        exact ⟨h1, h2, h3, h4⟩
      · have hmem : rid ∈ s.pending.map Prod.fst := findPending_mem _ _ _ hf
        have hlen := erasePending_length s.pending rid hmem
        have hsub := (erasePending_sublist s.pending rid).map Prod.fst
        rw [hostStep_complete_some cfg s rid e name hf, wrappedCallback_state]
        refine ⟨?_, ?_, ?_, ?_⟩
        · show s.activeRequestCount - 1 = (erasePending s.pending rid).length
          omega
        · show (erasePending s.pending rid).length ≤ cfg.maxActiveRequests
          omega
        · show ((erasePending s.pending rid).map Prod.fst).Nodup
          exact List.Nodup.sublist hsub h3
        · intro r hr
          show r < s.totalRequestCount
          exact h4 r (hsub.subset hr)

/-- Callback accounting is preserved by every step. -/
theorem cbInv_hostStep (cfg : HostConfig) (base : Nat) (s : HostState)
    (evs : List Event) (st : Step) (hg : GoodState cfg s) (hc : CbInv base s evs) :
    CbInv base (hostStep cfg s st).1 (evs ++ (hostStep cfg s st).2) := by
  obtain ⟨hg1, hg2, hg3, hg4⟩ := hg
  obtain ⟨hb, hlo, hcnt⟩ := hc
  simp only [pendingIds] at hg3 hg4 hlo hcnt
  cases st with
  | run name =>
      rcases hl : lookupNet s.networks name with _ | rc
      · simp only [hostStep, runNetwork_none_eq cfg s name hl]
        refine ⟨Nat.le_succ_of_le hb, hlo, ?_⟩
        intro r
        show cbCount (evs ++ [Event.callback s.totalRequestCount (some ErrCode.notFound)]) r =
          cbSpec base (s.totalRequestCount + 1) (s.pending.map Prod.fst) r
        rw [cbCount_append, cbCount_callback, hcnt r]
        by_cases hr : s.totalRequestCount = r
        · subst hr
          rw [cbSpec_at_top, if_pos rfl,
            cbSpec_issue base s.totalRequestCount (s.pending.map Prod.fst) hb
              (fun hm => Nat.lt_irrefl _ (hg4 _ hm))]
        · rw [if_neg hr, cbSpec_succ_ne base s.totalRequestCount r (s.pending.map Prod.fst)
            (fun he => hr he.symm)]
          omega
      · by_cases hfull : cfg.maxActiveRequests ≤ s.activeRequestCount
        · simp only [hostStep, runNetwork_refused_eq cfg s name rc hl hfull]
          refine ⟨Nat.le_succ_of_le hb, hlo, ?_⟩
          intro r
          show cbCount (evs ++ [Event.callback s.totalRequestCount (some ErrCode.requestRefused)]) r =
            cbSpec base (s.totalRequestCount + 1) (s.pending.map Prod.fst) r
          rw [cbCount_append, cbCount_callback, hcnt r]
          by_cases hr : s.totalRequestCount = r
          · subst hr
            rw [cbSpec_at_top, if_pos rfl,
              cbSpec_issue base s.totalRequestCount (s.pending.map Prod.fst) hb
                (fun hm => Nat.lt_irrefl _ (hg4 _ hm))]
          · rw [if_neg hr, cbSpec_succ_ne base s.totalRequestCount r (s.pending.map Prod.fst)
              (fun he => hr he.symm)]
            omega
        · have hlt := Nat.not_le.1 hfull
          simp only [hostStep, runNetwork_admit_eq cfg s name rc hl hlt]
          refine ⟨Nat.le_succ_of_le hb, ?_, ?_⟩
          · intro r hr
            have hr' : r = s.totalRequestCount ∨ r ∈ s.pending.map Prod.fst := by
              rw [pendingIds, List.map_cons] at hr
              exact List.mem_cons.1 hr
            rcases hr' with hre | hrm
            · omega
            · exact hlo r hrm
          · intro r
            show cbCount (evs ++ [Event.forward s.totalRequestCount]) r =
              cbSpec base (s.totalRequestCount + 1)
                (s.totalRequestCount :: s.pending.map Prod.fst) r
            rw [cbCount_append, cbCount_forward, hcnt r]
            by_cases hr : r = s.totalRequestCount
            · subst hr
              rw [cbSpec_at_top,
                cbSpec_mem base _ s.totalRequestCount _ (List.mem_cons.2 (Or.inl rfl))]
            · rw [cbSpec_cons_ne base _ r _ (s.pending.map Prod.fst) hr,
                cbSpec_succ_ne base s.totalRequestCount r (s.pending.map Prod.fst) hr]
              omega
  | complete rid e =>
      rcases hf : findPending s.pending rid with _ | name
      · simp only [hostStep_complete_none cfg s rid e hf]
        refine ⟨hb, hlo, fun r => ?_⟩
        rw [List.append_nil]
        exact hcnt r
      · have hmem : rid ∈ s.pending.map Prod.fst := findPending_mem _ _ _ hf
        have hsub := (erasePending_sublist s.pending rid).map Prod.fst
        have hiff := fun x => mem_erasePending s.pending rid x hg3
        rw [hostStep_complete_some cfg s rid e name hf]
        refine ⟨hb, ?_, ?_⟩
        · intro r hr
          exact hlo r (hsub.subset hr)
        · intro r
          show cbCount (evs ++
              ((if (lookupNet s.networks name).isSome then [Event.decRef name] else []) ++
                [Event.callback rid e, Event.decActive])) r =
            cbSpec base s.totalRequestCount
              ((erasePending s.pending rid).map Prod.fst) r
          rw [cbCount_append, cbCount_wrappedEvents, hcnt r]
          by_cases hr : rid = r
          · subst hr
            rw [cbSpec_mem base _ rid _ hmem, if_pos rfl,
              cbSpec_erase_self base s.totalRequestCount rid _ _ hiff
                (hlo rid hmem) (hg4 rid hmem)]
          · rw [if_neg hr,
              cbSpec_erase_ne base s.totalRequestCount r rid _ _ hiff
                (fun he => hr he.symm)]
            omega

/-- State consistency and callback accounting are preserved by whole
traces. -/
theorem inv_execTrace (cfg : HostConfig) (base : Nat) (s : HostState)
    (evs : List Event) (steps : List Step) (hg : GoodState cfg s)
    (hc : CbInv base s evs) :
    GoodState cfg (execTrace cfg s steps).1 ∧
      CbInv base (execTrace cfg s steps).1 (evs ++ (execTrace cfg s steps).2) := by
  induction steps generalizing s evs with
  | nil => simpa [execTrace] using ⟨hg, hc⟩
  | cons st rest ih =>
      have hg' := goodState_hostStep cfg s st hg
      have hc' := cbInv_hostStep cfg base s evs st hg hc
      have := ih (hostStep cfg s st).1 (evs ++ (hostStep cfg s st).2) hg' hc'
      simpa [execTrace, List.append_assoc] using this

/-- A run step advances the run-identifier counter by one. -/
theorem hostStep_run_total (cfg : HostConfig) (s : HostState) (name : String) :
    (hostStep cfg s (Step.run name)).1.totalRequestCount =
      s.totalRequestCount + 1 := by
  rcases hl : lookupNet s.networks name with _ | rc
  · simp [hostStep, runNetwork_none_eq cfg s name hl]
  · by_cases hfull : cfg.maxActiveRequests ≤ s.activeRequestCount
    · simp [hostStep, runNetwork_refused_eq cfg s name rc hl hfull]
    · simp [hostStep, runNetwork_admit_eq cfg s name rc hl (Nat.not_le.1 hfull)]

/-- A completion step does not touch the run-identifier counter. -/
theorem hostStep_complete_total (cfg : HostConfig) (s : HostState) (rid : Nat)
    (e : Option ErrCode) :
    (hostStep cfg s (Step.complete rid e)).1.totalRequestCount =
      s.totalRequestCount := by
  rcases hf : findPending s.pending rid with _ | name
  · rw [hostStep_complete_none cfg s rid e hf]
  · rw [hostStep_complete_some cfg s rid e name hf, wrappedCallback_state]

/-
Claim theorems and witnesses.
-/

/-- C8: runNetwork on a name not present in the registry invokes the
callback with the not-found error before returning, returns the freshly
allocated run identifier, never forwards to the Executor (no forward
event, pending unchanged), and leaves the refcounts and the in-flight
counter untouched: the only state change is the run-identifier counter. -/
theorem runNetwork_not_found (cfg : HostConfig) (s : HostState) (name : String)
    (h : lookupNet s.networks name = none) :
    runNetwork cfg s name =
      (s.totalRequestCount,
        { s with totalRequestCount := s.totalRequestCount + 1 },
        [Event.callback s.totalRequestCount (some ErrCode.notFound)]) := by
  simp [runNetwork, h]

/-- Witness for C8 at a concrete state. -/
theorem runNetwork_not_found_witness :
    lookupNet (HostState.mk [("m", 0)] 0 5 []).networks "n" = none ∧
    runNetwork ⟨4⟩ (HostState.mk [("m", 0)] 0 5 []) "n" =
      (5, HostState.mk [("m", 0)] 0 6 [],
        [Event.callback 5 (some ErrCode.notFound)]) :=
  ⟨by decide, runNetwork_not_found ⟨4⟩ (HostState.mk [("m", 0)] 0 5 []) "n" (by decide)⟩

/-- C7: removeNetwork on an absent name returns success without any effect
(registry unchanged, no eviction events); removeNetwork on a registered
name with nonzero refcount fails with the busy error, leaves the registry
unchanged and performs no eviction. -/
theorem removeNetwork_absent_and_busy (dt : DeviceTable) (networks : Registry)
    (absentName busyName : String) (rc : Nat)
    (habs : lookupNet networks absentName = none)
    (hfound : lookupNet networks busyName = some rc) (hrc : rc ≠ 0) :
    removeNetwork dt networks absentName = (networks, [], none) ∧
    removeNetwork dt networks busyName = (networks, [], some ErrCode.netBusy) := by
  constructor
  · simp [removeNetwork, habs]
  · simp [removeNetwork, hfound, hrc]

/-- Witness for C7 at a concrete registry. -/
theorem removeNetwork_absent_and_busy_witness :
    lookupNet [("a", 2)] "b" = none ∧
    lookupNet [("a", 2)] "a" = some 2 ∧ (2 : Nat) ≠ 0 ∧
    (removeNetwork ⟨fun _ => ["a"], fun _ => [0], fun _ _ => none⟩ [("a", 2)] "b" =
        ([("a", 2)], [], none) ∧
      removeNetwork ⟨fun _ => ["a"], fun _ => [0], fun _ _ => none⟩ [("a", 2)] "a" =
        ([("a", 2)], [], some ErrCode.netBusy)) :=
  ⟨by decide, by decide, by decide,
    removeNetwork_absent_and_busy ⟨fun _ => ["a"], fun _ => [0], fun _ _ => none⟩
      [("a", 2)] "b" "a" 2 (by decide) (by decide) (by decide)⟩

/-- C5: addNetwork on a module containing a function whose name is already
registered returns the duplicate-name error with the registry unchanged:
no entry is inserted or overwritten for any function of the module. -/
theorem addNetwork_duplicate_rejected (networks : Registry) (funcs : List String)
    (optErr : Option ErrCode) (partResult : Except ErrCode (List String))
    (profiling : Bool) (provErr : Option ErrCode) (f : String)
    (hf : f ∈ funcs) (hdup : (lookupNet networks f).isSome = true) :
    addNetwork networks funcs optErr partResult profiling provErr =
      (networks, some ErrCode.duplicateName) := by
  have hany : (funcs.any fun g => (lookupNet networks g).isSome) = true :=
    List.any_eq_true.mpr ⟨f, hf, hdup⟩
  simp [addNetwork, hany]

/-- Witness for C5 at a concrete registry and module. -/
theorem addNetwork_duplicate_rejected_witness :
    "a" ∈ ["b", "a"] ∧ (lookupNet [("a", 0)] "a").isSome = true ∧
    addNetwork [("a", 0)] ["b", "a"] none (Except.ok ["b", "a"]) false none =
      ([("a", 0)], some ErrCode.duplicateName) :=
  ⟨by decide, by decide,
    addNetwork_duplicate_rejected [("a", 0)] ["b", "a"] none (Except.ok ["b", "a"])
      false none "a" (by decide) (by decide)⟩

/-- C6: when provisioning fails during addNetwork (previous stages having
passed), the provisioner's error is returned with the registry unchanged:
no network entry has been inserted, so no half-provisioned network is
reachable by name. -/
theorem addNetwork_provision_failure_no_insert (networks : Registry)
    (funcs : List String) (roots : List String) (profiling : Bool) (e : ErrCode)
    (hnodup : ∀ f ∈ funcs, lookupNet networks f = none)
    (hprof : profiling = false ∨ networks = []) :
    addNetwork networks funcs none (Except.ok roots) profiling (some e) =
      (networks, some e) := by
  have hany : (funcs.any fun g => (lookupNet networks g).isSome) = false := by
    rw [List.any_eq_false]
    intro f hf
    simp [hnodup f hf]
  rcases hprof with h | h <;> subst h <;> simp [addNetwork, hany]

/-- Witness for C6 at a concrete registry and module. -/
theorem addNetwork_provision_failure_no_insert_witness :
    lookupNet [("a", 0)] "b" = none ∧
    addNetwork [("a", 0)] ["b"] none (Except.ok ["b"]) false
        (some ErrCode.provisionFailed) =
      ([("a", 0)], some ErrCode.provisionFailed) :=
  ⟨by decide,
    addNetwork_provision_failure_no_insert [("a", 0)] ["b"] ["b"] false
      ErrCode.provisionFailed (by decide) (Or.inl rfl)⟩

/-- C3 (amended): the wrapping completion callback invokes the caller's
callback exactly once, with the run identifier it received; the entry
refcount decrement (present exactly when the name is still registered)
happens before the caller's callback, and the global in-flight counter
decrement happens after it, not before. -/
theorem wrappedCallback_order (s : HostState) (name : String) (runID : Nat)
    (err : Option ErrCode) :
    cbCount (wrappedCallback s name runID err).2 runID = 1 ∧
    beforeCallback (wrappedCallback s name runID err).2 =
      (if (lookupNet s.networks name).isSome then [Event.decRef name] else []) ∧
    afterCallback (wrappedCallback s name runID err).2 = [Event.decActive] := by
  by_cases h : (lookupNet s.networks name).isSome <;>
    simp [wrappedCallback, h, cbCount, beforeCallback, afterCallback,
      isCallbackEv, isCallbackFor]

/-- C3 counterexample: at a concrete completion the wrapping callback does
invoke the caller's callback and does decrement the global in-flight
counter, but that decrement is not among the events preceding the
caller's callback: the code decrements `activeRequestCount_` after the
callback, contradicting the claim that both decrements happen before. -/
theorem wrappedCallback_decActive_not_before_cex :
    Event.callback 0 none ∈
      (wrappedCallback (HostState.mk [("n", 1)] 1 1 []) "n" 0 none).2 ∧
    Event.decActive ∈
      (wrappedCallback (HostState.mk [("n", 1)] 1 1 []) "n" 0 none).2 ∧
    Event.decActive ∉
      beforeCallback (wrappedCallback (HostState.mk [("n", 1)] 1 1 []) "n" 0 none).2 := by
  decide

/-- C10: quantization::clip always returns a value within the destination
type's range, and is the identity on inputs already in that range; for
the int32-to-int8 instantiation the range is [-128, 127]. -/
theorem clip_range_and_identity (w : Nat) (v u : Int)
    (hlo : intMin w ≤ u) (hhi : u ≤ intMax w) :
    intMin w ≤ clip w v ∧ clip w v ≤ intMax w ∧ clip w u = u ∧
    intMin 8 = -128 ∧ intMax 8 = 127 := by
  have hpos : (0 : Int) < 2 ^ (w - 1) := pow_pos (by norm_num) _
  have hmm : intMin w ≤ intMax w := by
    unfold intMin intMax
    linarith
  refine ⟨le_max_left _ _, ?_, ?_, by decide, by decide⟩
  · exact max_le hmm (min_le_left _ _)
  · unfold clip
    rw [min_eq_right hhi, max_eq_right hlo]

/-- Witness for C10 at the int8 instantiation. -/
theorem clip_range_and_identity_witness :
    intMin 8 ≤ 5 ∧ (5 : Int) ≤ intMax 8 ∧
    (intMin 8 ≤ clip 8 1000 ∧ clip 8 1000 ≤ intMax 8 ∧ clip 8 5 = 5 ∧
      intMin 8 = -128 ∧ intMax 8 = 127) :=
  ⟨by decide, by decide, clip_range_and_identity 8 1000 5 (by decide) (by decide)⟩

/-- State consistency is preserved by whole traces. -/
theorem goodState_execTrace (cfg : HostConfig) (s : HostState) (steps : List Step)
    (hg : GoodState cfg s) : GoodState cfg (execTrace cfg s steps).1 := by
  induction steps generalizing s with
  | nil => simpa [execTrace] using hg
  | cons st rest ih =>
      simpa [execTrace] using ih (hostStep cfg s st).1 (goodState_hostStep cfg s st hg)

/-- C1: along any trace from a consistent state, the number of requests
past admission and not yet completed never exceeds the configured maximum;
and a runNetwork call arriving at a reachable state whose in-flight
counter is at the maximum is refused: both pre-increments are rolled back
(the state is unchanged except for the run-identifier counter), the
callback receives the request-refused error, and the run is never
forwarded to the Executor. -/
theorem runNetwork_admission_bound (cfg : HostConfig) (s : HostState)
    (steps : List Step) (name : String) (rc : Nat) (hg : GoodState cfg s)
    (hfound : lookupNet (execTrace cfg s steps).1.networks name = some rc)
    (hfull : cfg.maxActiveRequests ≤ (execTrace cfg s steps).1.activeRequestCount) :
    (execTrace cfg s steps).1.pending.length ≤ cfg.maxActiveRequests ∧
    runNetwork cfg (execTrace cfg s steps).1 name =
      ((execTrace cfg s steps).1.totalRequestCount,
        { (execTrace cfg s steps).1 with
            totalRequestCount := (execTrace cfg s steps).1.totalRequestCount + 1 },
        [Event.callback (execTrace cfg s steps).1.totalRequestCount
          (some ErrCode.requestRefused)]) := by
  obtain ⟨e1, e2, e3, e4⟩ := goodState_execTrace cfg s steps hg
  exact ⟨e2, runNetwork_refused_eq cfg _ name rc hfound hfull⟩

/-- Witness for C1: capacity one, one registered network, one admitted run
in flight; the next call is refused and the state is untouched apart from
the identifier counter. -/
theorem runNetwork_admission_bound_witness :
    lookupNet (execTrace ⟨1⟩ (HostState.mk [("n", 0)] 0 0 [])
        [Step.run "n"]).1.networks "n" = some 1 ∧
    (⟨1⟩ : HostConfig).maxActiveRequests ≤
      (execTrace ⟨1⟩ (HostState.mk [("n", 0)] 0 0 []) [Step.run "n"]).1.activeRequestCount ∧
    ((execTrace ⟨1⟩ (HostState.mk [("n", 0)] 0 0 [])
          [Step.run "n"]).1.pending.length ≤ (⟨1⟩ : HostConfig).maxActiveRequests ∧
      runNetwork ⟨1⟩ (execTrace ⟨1⟩ (HostState.mk [("n", 0)] 0 0 []) [Step.run "n"]).1 "n" =
        ((execTrace ⟨1⟩ (HostState.mk [("n", 0)] 0 0 []) [Step.run "n"]).1.totalRequestCount,
          { (execTrace ⟨1⟩ (HostState.mk [("n", 0)] 0 0 []) [Step.run "n"]).1 with
              totalRequestCount :=
                (execTrace ⟨1⟩ (HostState.mk [("n", 0)] 0 0 [])
                  [Step.run "n"]).1.totalRequestCount + 1 },
          [Event.callback
            (execTrace ⟨1⟩ (HostState.mk [("n", 0)] 0 0 [])
              [Step.run "n"]).1.totalRequestCount
            (some ErrCode.requestRefused)])) :=
  ⟨by decide, by decide,
    runNetwork_admission_bound ⟨1⟩ (HostState.mk [("n", 0)] 0 0 []) [Step.run "n"]
      "n" 1 (by simp [GoodState, pendingIds]) (by decide) (by decide)⟩

/-- C2: along any trace from a quiescent consistent state in which every
admitted run is eventually completed, each runNetwork call's callback
fires exactly once, carrying the identifier the call returned: every
identifier issued during the trace (the consecutive block between the
initial and the final counter) receives exactly one callback event, and
any other identifier receives none. -/
theorem runNetwork_callback_exactly_once (cfg : HostConfig) (s : HostState)
    (steps : List Step) (r : Nat) (hg : GoodState cfg s) (hp : s.pending = [])
    (hdone : (execTrace cfg s steps).1.pending = []) :
    cbCount (execTrace cfg s steps).2 r =
      if s.totalRequestCount ≤ r ∧ r < (execTrace cfg s steps).1.totalRequestCount
      then 1 else 0 := by
  have hc0 : CbInv s.totalRequestCount s [] := by
    refine ⟨Nat.le_refl _, ?_, ?_⟩
    · intro x hx
      simp only [pendingIds, hp, List.map_nil] at hx
      exact absurd hx (List.not_mem_nil x)
    · intro x
      have h0 : cbCount [] x = 0 := rfl
      rw [h0]
      unfold cbSpec
      rw [if_neg]
      rintro ⟨a, b, _⟩
      omega
  obtain ⟨hb2, hlo2, hcnt2⟩ := (inv_execTrace cfg s.totalRequestCount s [] steps hg hc0).2
  have hx := hcnt2 r
  rw [List.nil_append] at hx
  rw [hx]
  unfold cbSpec
  have hpe : pendingIds (execTrace cfg s steps).1 = [] := by
    rw [pendingIds, hdone, List.map_nil]
  rw [hpe]
  refine if_congr ?_ rfl rfl
  simp

/-- Witness for C2: one admitted and completed run; its identifier gets
exactly one callback. -/
theorem runNetwork_callback_exactly_once_witness :
    (HostState.mk [("n", 0)] 0 0 []).pending = [] ∧
    (execTrace ⟨1⟩ (HostState.mk [("n", 0)] 0 0 [])
        [Step.run "n", Step.complete 0 none]).1.pending = [] ∧
    cbCount (execTrace ⟨1⟩ (HostState.mk [("n", 0)] 0 0 [])
        [Step.run "n", Step.complete 0 none]).2 0 =
      if (HostState.mk [("n", 0)] 0 0 []).totalRequestCount ≤ 0 ∧
          0 < (execTrace ⟨1⟩ (HostState.mk [("n", 0)] 0 0 [])
            [Step.run "n", Step.complete 0 none]).1.totalRequestCount
      then 1 else 0 :=
  ⟨rfl, by decide,
    runNetwork_callback_exactly_once ⟨1⟩ (HostState.mk [("n", 0)] 0 0 [])
      [Step.run "n", Step.complete 0 none] 0 (by simp [GoodState, pendingIds])
      rfl (by decide)⟩

/-- C9: run identifiers are issued in strictly increasing order relative
to call order on the orchestrator, each runNetwork call (also one that
fails lookup or admission) consuming one fresh identifier: along any
trace, the issued identifiers are exactly the consecutive block starting
at the initial counter, one per run step, and are pairwise increasing. -/
theorem runNetwork_ids_strictly_increasing (cfg : HostConfig) (s : HostState)
    (steps : List Step) :
    issuedIds cfg s steps = List.range' s.totalRequestCount (countRuns steps) ∧
    (issuedIds cfg s steps).Pairwise (· < ·) := by
  have main : ∀ (steps : List Step) (s : HostState),
      issuedIds cfg s steps = List.range' s.totalRequestCount (countRuns steps) := by
    intro steps
    induction steps with
    | nil => intro s; rfl
    | cons st rest ih =>
        intro s
        cases st with
        | run name =>
            simp only [issuedIds, countRuns]
            rw [ih, hostStep_run_total, List.range'_succ]
        | complete rid e =>
            simp only [issuedIds, countRuns]
            rw [ih, hostStep_complete_total]
  refine ⟨main steps s, ?_⟩
  rw [main steps s]
  exact List.pairwise_lt_range' _ _

/-- A fold that only ever accumulates successes stays a success. -/
theorem oneErrOnly_all_none (errs : List (Option ErrCode))
    (h : ∀ x ∈ errs, x = none) : oneErrOnly errs = none := by
  induction errs with
  | nil => rfl
  | cons hd tl ih =>
      have hhd := h hd (List.mem_cons.2 (Or.inl rfl))
      subst hhd
      exact ih fun x hx => h x (List.mem_cons.2 (Or.inr hx))

/-- Removing the head network when its refcount is zero and every eviction
succeeds erases exactly the head entry and reports success. -/
theorem removeNetwork_head_ok (dt : DeviceTable) (n : String) (rest : Registry)
    (hev : ∀ nd d, dt.evictResult nd d = none) :
    (removeNetwork dt ((n, 0) :: rest) n).1 = rest ∧
    (removeNetwork dt ((n, 0) :: rest) n).2.2 = none := by
  have hl : lookupNet ((n, 0) :: rest) n = some 0 := by simp [lookupNet]
  have herr : oneErrOnly (((dt.dagNodes n).map fun nd =>
      (dt.deviceIDs nd).map fun d => dt.evictResult nd d).flatten) = none := by
    apply oneErrOnly_all_none
    intro x hx
    rw [List.mem_flatten] at hx
    obtain ⟨l, hl1, hl2⟩ := hx
    rw [List.mem_map] at hl1
    obtain ⟨nd, _, rfl⟩ := hl1
    rw [List.mem_map] at hl2
    obtain ⟨d, _, rfl⟩ := hl2
    exact hev nd d
  constructor
  · simp [removeNetwork, hl, eraseNet]
  · simp [removeNetwork, hl, herr]

/-- The clearHost removal loop, when every refcount is zero and every
eviction succeeds, empties the registry and reports success. -/
theorem clearHostLoop_all_ok (dt : DeviceTable) (networks : Registry)
    (hrc : ∀ p ∈ networks, p.2 = 0) (hev : ∀ nd d, dt.evictResult nd d = none) :
    (clearHostLoop dt networks).1 = [] ∧
    (clearHostLoop dt networks).2.2 = none := by
  induction networks with
  | nil => exact ⟨rfl, rfl⟩
  | cons hd tl ih =>
      obtain ⟨n, rc⟩ := hd
      have hrc0 : rc = 0 := hrc (n, rc) (List.mem_cons.2 (Or.inl rfl))
      subst hrc0
      obtain ⟨h1, h2⟩ := removeNetwork_head_ok dt n tl hev
      obtain ⟨ih1, ih2⟩ := ih fun p hp => hrc p (List.mem_cons.2 (Or.inr hp))
      simp only [clearHostLoop, h2]
      exact ⟨ih1, ih2⟩

/-- C4 (amended): clearHost shuts the Executor down before touching the
registry; when every entry's refcount is zero and every eviction succeeds,
it returns with the registry empty and every Device Handle stopped, stop
errors aggregated first-error-wins.  (A failed removal instead returns
that error immediately, leaving the remaining networks registered and the
devices unstopped.) -/
theorem clearHost_amended (dt : DeviceTable)
    (stopResults : List (Nat × Option ErrCode)) (networks : Registry)
    (hrc : ∀ p ∈ networks, p.2 = 0) (hev : ∀ nd d, dt.evictResult nd d = none) :
    (clearHost dt stopResults networks).1 = [] ∧
    (clearHost dt stopResults networks).2.1.head? = some Event.shutdownExecutor ∧
    (∀ p ∈ stopResults,
      Event.stopDevice p.1 ∈ (clearHost dt stopResults networks).2.1) ∧
    (clearHost dt stopResults networks).2.2 =
      oneErrOnly (stopResults.map Prod.snd) := by
  obtain ⟨h1, h2⟩ := clearHostLoop_all_ok dt networks hrc hev
  have hclear : clearHost dt stopResults networks =
      ((clearHostLoop dt networks).1,
        Event.shutdownExecutor :: (clearHostLoop dt networks).2.1 ++
          stopResults.map fun p => Event.stopDevice p.1,
        oneErrOnly (stopResults.map Prod.snd)) := by
    simp only [clearHost, h2]
  rw [hclear]
  refine ⟨h1, rfl, ?_, rfl⟩
  intro p hp
  exact List.mem_cons.2 (Or.inr (List.mem_append.2
    (Or.inr (List.mem_map.2 ⟨p, hp, rfl⟩))))

/-- Witness for C4 (amended) at a concrete registry with two networks and
two devices, the second device failing to stop. -/
theorem clearHost_amended_witness :
    (clearHost ⟨fun _ => ["a"], fun _ => [0], fun _ _ => none⟩
        [(0, none), (1, some ErrCode.deviceError)] [("a", 0), ("b", 0)]).1 = [] ∧
    (clearHost ⟨fun _ => ["a"], fun _ => [0], fun _ _ => none⟩
        [(0, none), (1, some ErrCode.deviceError)]
        [("a", 0), ("b", 0)]).2.1.head? = some Event.shutdownExecutor ∧
    Event.stopDevice 1 ∈
      (clearHost ⟨fun _ => ["a"], fun _ => [0], fun _ _ => none⟩
        [(0, none), (1, some ErrCode.deviceError)] [("a", 0), ("b", 0)]).2.1 ∧
    (clearHost ⟨fun _ => ["a"], fun _ => [0], fun _ _ => none⟩
        [(0, none), (1, some ErrCode.deviceError)] [("a", 0), ("b", 0)]).2.2 =
      oneErrOnly ([(0, none), (1, some ErrCode.deviceError)].map Prod.snd) :=
  ⟨(clearHost_amended ⟨fun _ => ["a"], fun _ => [0], fun _ _ => none⟩
      [(0, none), (1, some ErrCode.deviceError)] [("a", 0), ("b", 0)]
      (by decide) (fun _ _ => rfl)).1,
    (clearHost_amended ⟨fun _ => ["a"], fun _ => [0], fun _ _ => none⟩
      [(0, none), (1, some ErrCode.deviceError)] [("a", 0), ("b", 0)]
      (by decide) (fun _ _ => rfl)).2.1,
    (clearHost_amended ⟨fun _ => ["a"], fun _ => [0], fun _ _ => none⟩
      [(0, none), (1, some ErrCode.deviceError)] [("a", 0), ("b", 0)]
      (by decide) (fun _ _ => rfl)).2.2.1 (1, some ErrCode.deviceError) (by decide),
    (clearHost_amended ⟨fun _ => ["a"], fun _ => [0], fun _ _ => none⟩
      [(0, none), (1, some ErrCode.deviceError)] [("a", 0), ("b", 0)]
      (by decide) (fun _ _ => rfl)).2.2.2⟩

/-- C4 counterexample: with two registered networks (both refcount zero)
and one device whose eviction of the first network's node fails, clearHost
returns with the second network still registered and without having
stopped any device, refuting the claim that on return the registry is
empty and every Device Handle has been stopped. -/
theorem clearHost_early_return_cex :
    (clearHost ⟨fun _ => ["a"], fun _ => [0], fun _ _ => some ErrCode.deviceError⟩
        [(0, none)] [("a", 0), ("b", 0)]).1 ≠ [] ∧
    Event.stopDevice 0 ∉
      (clearHost ⟨fun _ => ["a"], fun _ => [0], fun _ _ => some ErrCode.deviceError⟩
        [(0, none)] [("a", 0), ("b", 0)]).2.1 := by
  decide

end Glow
